import Mathlib

/-!
Verification of MPWatchter (src/app.py): the recurring scrape-and-notify
pipeline.  The Python source is shallowly embedded: each Lean definition
mirrors one function of `app.py` (the source name is kept), SQLite's
`results` table is a list of rows whose `UNIQUE(keyword_id, ad_id)`
constraint becomes an explicit key test before insertion, wall-clock
instants are integers (seconds), and the outcome of the one outbound HTTP
GET is an explicit argument of the fetch function.
-/

namespace MPW

/-- A normalized listing as built by `fetch_marktplaats_results` (the dict
appended to `results`, lines 411-420 of app.py). -/
structure Ad where
  ad_id : String
  title : String
  price : String
  url : String
  image_url : String
  posted_at : String
deriving Repr, DecidableEq, Inhabited

/-- Value of a list of decimal digit characters read as one numeral, the
effect of Python's `int("".join(digits))`. -/
def digitsVal (l : List Char) : Nat :=
  l.foldl (fun a c => a * 10 + (c.toNat - 48)) 0

/-- The inner `parse_price_to_int` of `run_search_for_keyword` (lines
600-609): keep only the digit characters of the display string and read
them as one decimal number; `none` when the string is empty or has no
digit.  (For a nonempty digit string Python's `int` cannot raise, so the
`ValueError` branch is dead.) -/
def parse_price_to_int (p : String) : Option Nat :=
  if p = "" then none
  else
    let digits := p.toList.filter Char.isDigit
    if digits.isEmpty then none else some (digitsVal digits)

/-- The per-ad bound checks of the price-filter loop in
`run_search_for_keyword` (lines 611-626).  `min_price` / `max_price` are
the keyword's bounds in the major currency unit, `none` standing for the
Python `None` or `""` (both skipped by `not in (None, "")`); the bounds
are assumed numeric, so `int(...)` cannot raise.  The ad is skipped when a
bound is set and the parsed price is missing, below `int(min_price) * 100`
or above `int(max_price) * 100`. -/
def keep_ad (min_price max_price : Option Nat) (ad : Ad) : Bool :=
  let p := parse_price_to_int ad.price
  let minOk :=
    match min_price with
    | none => true
    | some m =>
      match p with
      | none => false
      | some v => decide (m * 100 ≤ v)
  let maxOk :=
    match max_price with
    | none => true
    | some m =>
      match p with
      | none => false
      | some v => decide (v ≤ m * 100)
  minOk && maxOk

/-- The whole filter loop: the ads that survive both bound checks, in
order. -/
def filter_ads (min_price max_price : Option Nat) (ads : List Ad) : List Ad :=
  ads.filter (keep_ad min_price max_price)

/-- The Price Filter rule in the spec's words (paragraph 4.4): with the
price value known, keep iff it lies within the inclusive bounds, an absent
bound being unbounded on its side, value and bounds in the same unit. -/
def keep_spec (min_price max_price : Option Nat) (v : Nat) : Bool :=
  (match min_price with
   | none => true
   | some m => decide (m ≤ v)) &&
  (match max_price with
   | none => true
   | some m => decide (v ≤ m))

/-- A row of the SQLite `results` table (`init_db`, lines 132-148). -/
structure Entry where
  keyword_id : Nat
  ad_id : String
  title : String
  price : String
  url : String
  image_url : String
  first_seen_at : String
  posted_at : String
deriving Repr, DecidableEq, Inhabited

/-- The `results` table, rows in rowid (insertion) order. -/
abbrev DB := List Entry

/-- Whether the table holds a row for the pair; the test the
`UNIQUE(keyword_id, ad_id)` constraint performs on an INSERT. -/
def hasKey (db : DB) (kid : Nat) (aid : String) : Bool :=
  db.any fun e => decide (e.keyword_id = kid) && decide (e.ad_id = aid)

/-- The row `store_new_results` inserts for an ad: `now` is the
`datetime.now().isoformat(timespec="seconds")` stamp taken at insertion. -/
def mkEntry (kid : Nat) (now : String) (ad : Ad) : Entry :=
  ⟨kid, ad.ad_id, ad.title, ad.price, ad.url, ad.image_url, now, ad.posted_at⟩

/-- `store_new_results` (lines 432-465): insert each ad under
`(keyword_id, ad_id)`; an `IntegrityError` from the uniqueness constraint
(key already present) skips the ad.  Returns the updated table and the ads
actually inserted, in order.  (`if not ads: return []` coincides with the
nil case.) -/
def store_new_results (kid : Nat) (ads : List Ad) (now : String) (db : DB) :
    DB × List Ad :=
  match ads with
  | [] => (db, [])
  | ad :: rest =>
    if hasKey db kid ad.ad_id then store_new_results kid rest now db
    else
      let r := store_new_results kid rest now (db ++ [mkEntry kid now ad])
      (r.1, ad :: r.2)

/-- `reset_results_for_keyword` (lines 503-510): DELETE the term's rows.
The delete-term route runs the same deletion after dropping the term. -/
def reset_results_for_keyword (kid : Nat) (db : DB) : DB :=
  db.filter fun e => !(decide (e.keyword_id = kid))

/-- The operations that ever write the `results` table. -/
inductive LedgerOp where
  | record (kid : Nat) (ads : List Ad) (now : String)
  | reset (kid : Nat)

/-- Effect of one ledger operation on the table. -/
def applyOp (db : DB) : LedgerOp → DB
  | .record kid ads now => (store_new_results kid ads now db).1
  | .reset kid => reset_results_for_keyword kid db

/-- Effect of a sequence of ledger operations. -/
def applyOps (db : DB) (ops : List LedgerOp) : DB :=
  ops.foldl applyOp db

/-- The dedup key of a row. -/
def keyOf (e : Entry) : Nat × String :=
  (e.keyword_id, e.ad_id)

/-- The table never holds two rows with the same `(keyword_id, ad_id)`:
the invariant the UNIQUE constraint maintains. -/
def keysNodup (db : DB) : Prop :=
  (db.map keyOf).Nodup

/-- A JSON value, for the provider payload `resp.json()` returns.  Numbers
are integral (the epoch values the code inspects). -/
inductive J where
  | null
  | bool (b : Bool)
  | num (n : Int)
  | str (s : String)
  | arr (items : List J)
  | obj (fields : List (String × J))

/-- Python's `dict.get`: the first binding of the key, `none` when the
value is not a dict or the key is missing. -/
def J.get (j : J) (k : String) : Option J :=
  match j with
  | .obj fs => (fs.find? fun p => decide (p.1 = k)).map (·.2)
  | _ => none

/-- Python truthiness of a JSON value. -/
def J.truthy : J → Bool
  | .null => false
  | .bool b => b
  | .num n => decide (n ≠ 0)
  | .str s => decide (s ≠ "")
  | .arr l => !l.isEmpty
  | .obj fs => !fs.isEmpty

/-- Python `str(...)` of a scalar JSON value.  The code only ever reaches
this on identifier and URL fields, which are strings or numbers; the
`repr` of a container is not reproduced. -/
def jStr : J → String
  | .str s => s
  | .num n => toString n
  | .bool b => if b then "True" else "False"
  | .null => "None"
  | .arr _ => "<container>"
  | .obj _ => "<container>"

/-- First truthy value of an `x or y or ...` chain over dict lookups. -/
def firstTruthy (vals : List (Option J)) : Option J :=
  vals.findSome? fun v =>
    match v with
    | some j => if j.truthy then some j else none
    | none => none

/-- The whitespace `str.strip()` removes (ASCII subset; the payloads hold
no exotic space characters). -/
def isSpace (c : Char) : Bool :=
  decide (c = ' ' ∨ c = '\t' ∨ c = '\n' ∨ c = '\r')

/-- Python `s.strip()` over the character list. -/
def pyStrip (cs : List Char) : List Char :=
  ((cs.dropWhile isSpace).reverse.dropWhile isSpace).reverse

/-- One step of `_extract_posted_at`: the string / numeric-epoch handling
applied to a looked-up value.  `fmt` stands for `_format_epoch_to_str`,
whose output depends on the host clock's time zone and so is a parameter
of the model (the code falls through when it yields `""`). -/
def try_str_num (fmt : Int → String) (v : Option J) : Option String :=
  match v with
  | some (.str s) =>
    if (pyStrip s.toList).isEmpty then none else some (pyStrip s.toList).asString
  | some (.num n) =>
    if fmt n = "" then none else some (fmt n)
  | _ => none

/-- `_extract_posted_at` (lines 225-260): probe a fixed priority list of
date-bearing fields (string, numeric epoch, or a nested dict's
`value`/`date`/`iso`/`iso8601`), then the nested
`dateInfo`/`metadata`/`timing` dicts; `""` when nothing matches. -/
def extract_posted_at (fmt : Int → String) (item : J) : String :=
  let direct :=
    ["date", "dateTime", "startTime", "startDateTime", "startDate",
     "postedAt"].findSome? fun k =>
      match item.get k with
      | some (.obj fs) =>
        ["value", "date", "iso", "iso8601"].findSome? fun sub =>
          try_str_num fmt ((J.obj fs).get sub)
      | v => try_str_num fmt v
  match direct with
  | some s => s
  | none =>
    let nested :=
      ["dateInfo", "metadata", "timing"].findSome? fun nk =>
        match item.get nk with
        | some (.obj fs) =>
          ["date", "dateTime", "start", "value"].findSome? fun sub =>
            try_str_num fmt ((J.obj fs).get sub)
        | _ => none
    nested.getD ""

/-- The structural test of `find_listings` on the first array element:
a dict with an `itemId` or `id` key and a `title` key. -/
def looks_like_listing : J → Bool
  | .obj fs =>
    (fs.any (fun p => decide (p.1 = "itemId")) || fs.any (fun p => decide (p.1 = "id")))
      && fs.any (fun p => decide (p.1 = "title"))
  | _ => false

mutual

/-- The inner `find_listings` of `fetch_marktplaats_results` (lines
359-372): depth-first search for the first array whose head looks like a
listing object; descends into array items and dict values. -/
def find_listings : J → Option (List J)
  | .arr l =>
    match l with
    | [] => none
    | x :: xs =>
      if looks_like_listing x then some (x :: xs) else find_in_list (x :: xs)
  | .obj fs => find_in_fields fs
  | _ => none

/-- The `for item in obj:` recursion of `find_listings` over an array. -/
def find_in_list : List J → Option (List J)
  | [] => none
  | x :: xs =>
    match find_listings x with
    | some r => some r
    | none => find_in_list xs

/-- The `for v in obj.values():` recursion of `find_listings` over a
dict. -/
def find_in_fields : List (String × J) → Option (List J)
  | [] => none
  | (_, v) :: fs =>
    match find_listings v with
    | some r => some r
    | none => find_in_fields fs

end

/-- Two-digit zero-padded decimal rendering. -/
def pad2 (n : Nat) : String :=
  if n < 10 then "0" ++ toString n else toString n

/-- The `f"€ {cents/100:.2f}".replace(".", ",")` rendering of a cent
amount (exact for the integral cent values the payload carries). -/
def formatCents (cents : Int) : String :=
  if cents < 0 then
    "€ -" ++ toString ((-cents) / 100) ++ "," ++ pad2 ((-cents) % 100).toNat
  else
    "€ " ++ toString (cents / 100) ++ "," ++ pad2 (cents % 100).toNat

/-- Python `s.startswith("http")`. -/
def startsWithHttp (s : String) : Bool :=
  match s.toList with
  | 'h' :: 't' :: 't' :: 'p' :: _ => true
  | _ => false

/-- The per-item extraction of `fetch_marktplaats_results` (lines
377-420): identifier, title, price (the raw `priceDisplay` when the key is
present, else a rendering of `priceCents`), absolute URL, first image, and
posted-at text; `none` when the identifier or the URL comes out empty
(the `continue`). -/
def extract_ad (fmt : Int → String) (item : J) : Option Ad :=
  let ad_id :=
    match firstTruthy [item.get "itemId", item.get "id"] with
    | some j => jStr j
    | none => ""
  let title :=
    match item.get "title" with
    | some j => if j.truthy then jStr j else ""
    | none => ""
  let price_info :=
    match item.get "priceInfo" with
    | some j => if j.truthy then j else .obj []
    | none => .obj []
  let price :=
    match price_info.get "priceDisplay" with
    | some (.str s) => s
    | some .null => ""
    | some other => jStr other
    | none =>
      match price_info.get "priceCents" with
      | some (.num cents) => formatCents cents
      | _ => ""
  let url :=
    match firstTruthy [item.get "url", item.get "vipUrl", item.get "relativeUrl"] with
    | some j =>
      let s := jStr j
      if startsWithHttp s then s else "https://www.marktplaats.nl" ++ s
    | none => ""
  let image_url :=
    match item.get "media" with
    | some (.obj fs) =>
      match (J.obj fs).get "images" with
      | some (.arr (img :: _)) =>
        (match img.get "url" with
         | some u => if u.truthy then jStr u else ""
         | none => "")
      | _ => ""
    | some (.arr (m :: _)) =>
      (match m.get "url" with
       | some u => if u.truthy then jStr u else ""
       | none => "")
    | _ => ""
  if ad_id = "" || url = "" then none
  else some ⟨ad_id, title, price, url, image_url, extract_posted_at fmt item⟩

/-- Outcome of the HTTP GET inside `fetch_marktplaats_results`'s `try`
block: `failure` covers a timeout, a connection error, a non-2xx status
(`raise_for_status`) and a body that is not JSON — every raising path, all
caught by the blanket `except` that returns `[]`; `payload` carries the
parsed body. -/
inductive FetchOutcome where
  | failure
  | payload (data : J)

/-- `fetch_marktplaats_results` (lines 315-425) with the network exchange
made explicit: on failure the empty list; otherwise walk the payload for
the listings array, extract at most `limit` ads, and truncate again to
`limit`. -/
def fetch_marktplaats_results (fmt : Int → String) (outcome : FetchOutcome)
    (limit : Nat) : List Ad :=
  match outcome with
  | .failure => []
  | .payload data =>
    match find_listings data with
    | none => []
    | some listings => (((listings.take limit).filterMap (extract_ad fmt)).take limit)

/-- A `datetime` value.  Python orders `datetime` objects lexicographically
by their fields. -/
structure DT where
  year : Nat
  month : Nat
  day : Nat
  hour : Nat
  minute : Nat
  second : Nat
deriving Repr, DecidableEq, Inhabited

/-- `datetime.min`, `0001-01-01 00:00:00`. -/
def DT.min : DT := ⟨1, 1, 1, 0, 0, 0⟩

/-- An injective, order-preserving encoding of an in-range `DT` into `Nat`
(fields stay under the radices 13 / 32 / 24 / 60 / 60), so comparing keys
is exactly Python's `datetime` comparison on the valid values the parsers
build. -/
def DT.key (d : DT) : Nat :=
  ((((d.year * 13 + d.month) * 32 + d.day) * 24 + d.hour) * 60 + d.minute) * 60
    + d.second

/-- Gregorian leap-year rule, as `datetime` uses. -/
def isLeap (y : Nat) : Bool :=
  (decide (y % 4 = 0) && decide (y % 100 ≠ 0)) || decide (y % 400 = 0)

/-- Days in a month, as `datetime` validates. -/
def daysInMonth (y m : Nat) : Nat :=
  if m = 2 then (if isLeap y then 29 else 28)
  else if m = 4 ∨ m = 6 ∨ m = 9 ∨ m = 11 then 30
  else 31

/-- The range validation of the `datetime` constructor: `none` models the
`ValueError` an out-of-range field raises. -/
def mkDT (y mo d h mi s : Nat) : Option DT :=
  if 1 ≤ y ∧ y ≤ 9999 ∧ 1 ≤ mo ∧ mo ≤ 12 ∧ 1 ≤ d ∧ d ≤ daysInMonth y mo
      ∧ h < 24 ∧ mi < 60 ∧ s < 60
  then some ⟨y, mo, d, h, mi, s⟩ else none

/-- Value of a decimal digit character. -/
def digit? (c : Char) : Option Nat :=
  if c.isDigit then some (c.toNat - 48) else none

/-- Two decimal digit characters as one number. -/
def two? (a b : Char) : Option Nat := do
  let x ← digit? a
  let y ← digit? b
  pure (x * 10 + y)

/-- The time-of-day tail of an ISO string: `HH:MM` or `HH:MM:SS`. -/
def parseTimePart : List Char → Option (Nat × Nat × Nat)
  | [h1, h2, ':', m1, m2] => do
    let h ← two? h1 h2
    let m ← two? m1 m2
    pure (h, m, 0)
  | [h1, h2, ':', m1, m2, ':', s1, s2] => do
    let h ← two? h1 h2
    let m ← two? m1 m2
    let s ← two? s1 s2
    pure (h, m, s)
  | _ => none

/-- The raw fields of an ISO string: `YYYY-MM-DD`, optionally one
separator character (Python 3.11 accepts any) and a time of day. -/
def isoFields (cs : List Char) : Option (Nat × Nat × Nat × Nat × Nat × Nat) :=
  match cs with
  | y1 :: y2 :: y3 :: y4 :: '-' :: m1 :: m2 :: '-' :: d1 :: d2 :: rest => do
    let hi ← two? y1 y2
    let lo ← two? y3 y4
    let mo ← two? m1 m2
    let da ← two? d1 d2
    match rest with
    | [] => pure (hi * 100 + lo, mo, da, 0, 0, 0)
    | _ :: t => do
      let (h, mi, ss) ← parseTimePart t
      pure (hi * 100 + lo, mo, da, h, mi, ss)
  | _ => none

/-- Model of `datetime.fromisoformat`, restricted to the shapes this
program produces (`isoformat(timespec="seconds")`) and consumes
(`2025-11-23 12:34`, `2025-11-23T12:34:00`, bare dates); out-of-range
fields fail as in Python. -/
def fromisoformatL (cs : List Char) : Option DT :=
  (isoFields cs).bind fun (y, mo, da, h, mi, ss) => mkDT y mo da h mi ss

/-- The comma / pipe prefix-stripping of `parse_posted_at_to_dt`
(`if sep in s: s = s.split(sep, 1)[0].strip()`). -/
def stripAfterSep (cs : List Char) (sep : Char) : List Char :=
  if cs.contains sep then pyStrip (cs.takeWhile fun c => decide (c ≠ sep))
  else cs

/-- The accumulator recursion behind `pyWords`. -/
def wordsAux : List Char → List Char → List (List Char)
  | [], acc => if acc.isEmpty then [] else [acc.reverse]
  | c :: cs, acc =>
    if isSpace c then
      if acc.isEmpty then wordsAux cs [] else acc.reverse :: wordsAux cs []
    else wordsAux cs (c :: acc)

/-- Python `s.split()`: split on whitespace runs, no empty parts. -/
def pyWords (cs : List Char) : List (List Char) :=
  wordsAux cs []

/-- Python `int(...)` on a token of the dates handled here: decimal
digits only (the split tokens carry no signs or inner spaces). -/
def parseNatL? (cs : List Char) : Option Nat :=
  if cs.isEmpty then none
  else if cs.all Char.isDigit then some (digitsVal cs) else none

/-- The `month_map` of `parse_posted_at_to_dt` (lines 284-287): Dutch
month abbreviations. -/
def month_map : List (List Char × Nat) :=
  [("jan".toList, 1), ("feb".toList, 2), ("mrt".toList, 3), ("apr".toList, 4),
   ("mei".toList, 5), ("jun".toList, 6), ("jul".toList, 7), ("aug".toList, 8),
   ("sep".toList, 9), ("okt".toList, 10), ("nov".toList, 11), ("dec".toList, 12)]

/-- The `'8 sep 25'` path of `parse_posted_at_to_dt` (lines 288-300):
drop the dots, split on whitespace, read day, month abbreviation and year
(two-digit years map to 2000+); `none` when a token fails `int(...)`, the
abbreviation is not in the table, or `datetime(...)` rejects the values —
each a caught exception or a failed `if month:` in the source. -/
def shortDate (cs : List Char) : Option DT :=
  match pyWords (cs.filter fun c => decide (c ≠ '.')) with
  | p0 :: p1 :: p2 :: _ => do
    let day ← parseNatL? p0
    let y0 ← parseNatL? p2
    let y := if y0 < 100 then y0 + 2000 else y0
    match month_map.find? (fun q => decide (q.1 = p1.map Char.toLower)) with
    | some q => mkDT y q.2 day 0 0 0
    | none => none
  | _ => none

/-- The `posted_at` half of `parse_posted_at_to_dt` (lines 272-300):
strip the string, keep the prefix before a comma or pipe, try ISO, then
the short-date path; `none` on every fall-through.  `""` models the falsy
Python inputs (`None` or the empty string). -/
def posted_dt (posted_at : String) : Option DT :=
  if posted_at = "" then none
  else
    let s0 := pyStrip posted_at.toList
    if s0.isEmpty then none
    else
      let s2 := stripAfterSep (stripAfterSep s0 ',') '|'
      match fromisoformatL s2 with
      | some dt => some dt
      | none => shortDate s2

/-- `parse_posted_at_to_dt` (lines 263-308): chronological key of a row —
the parsed `posted_at` when it parses, else `first_seen_at` as ISO, else
`datetime.min`. -/
def parse_posted_at_to_dt (posted_at fallback_first_seen : String) : DT :=
  match posted_dt posted_at with
  | some dt => dt
  | none =>
    if fallback_first_seen = "" then DT.min
    else (fromisoformatL fallback_first_seen.toList).getD DT.min

/-- The `_sort_dt` a row receives in `get_results_for_keyword`. -/
def sort_dt (e : Entry) : DT :=
  parse_posted_at_to_dt e.posted_at e.first_seen_at

/-- `get_results_for_keyword` (lines 468-500): the term's rows (SELECT in
rowid order), sorted newest first on `_sort_dt` — Python's stable
`sort(key=..., reverse=True)`, which `mergeSort` under the reversed key
comparison reproduces — and truncated to `limit`. -/
def get_results_for_keyword (db : DB) (kid : Nat) (limit : Nat) : List Entry :=
  let rows := db.filter fun e => decide (e.keyword_id = kid)
  (rows.mergeSort fun a b => decide ((sort_dt b).key ≤ (sort_dt a).key)).take limit

/-- All occurrences split of Python `s.split(":")`, empty parts kept. -/
def splitOnChar (sep : Char) (cs : List Char) : List (List Char) :=
  cs.foldr (fun c acc =>
    match acc with
    | p :: ps => if c = sep then [] :: p :: ps else (c :: p) :: ps
    | [] => [[c]]) [[]]

/-- `parse_time_str` (lines 160-165): `"HH:MM"` to minutes of the day;
any failure (wrong shape, non-numeric, out-of-range `time(...)`) yields
the 23:00 default. -/
def parse_time_str (v : String) : Nat :=
  match splitOnChar ':' (pyStrip v.toList) with
  | [hh, mm] =>
    match parseNatL? (pyStrip hh), parseNatL? (pyStrip mm) with
    | some h, some m => if h < 24 ∧ m < 60 then h * 60 + m else 1380
    | _, _ => 1380
  | _ => 1380

/-- `is_in_sleep_window` (lines 168-171), times of day in minutes since
midnight (Python compares `time` objects by their fields, which
minutes-of-day order the same way); `s` / `e` are `start` / `end`. -/
def is_in_sleep_window (now_t s e : Nat) : Bool :=
  if s < e then decide (s ≤ now_t) && decide (now_t < e)
  else decide (s ≤ now_t) || decide (now_t < e)

/-- The settings dict after `load_settings` normalisation; the enum-like
fields stay the strings the file holds ("ja" / "nee"). -/
structure Settings where
  default_interval_minutes : Nat
  default_limit_per_run : Nat
  sleep_mode : String
  sleep_start : String
  sleep_end : String
  telegram_bot_id : String
  telegram_chat_id : String
  manual_telegram : String
deriving Repr, Inhabited

/-- A keyword record of `keywords.json` after `load_keywords`
normalisation.  `last_run_at` is an instant in seconds; `none` models
`"Nooit"` and the unparsable strings the scheduler maps to `None`. -/
structure Keyword where
  id : Nat
  term : String
  interval_minutes : Option Nat
  min_price : Option Nat
  max_price : Option Nat
  limit_per_run : Option Nat
  last_run_at : Option Int
deriving Repr, Inhabited

/-- `s.lower() == "ja"`. -/
def isJa (s : String) : Bool :=
  decide (s.toList.map Char.toLower = "ja".toList)

/-- `int(kw.get("interval_minutes") or settings["default_interval_minutes"])`:
Python `or` sends a missing value and a stored 0 alike to the default. -/
def kw_interval (st : Settings) (kw : Keyword) : Nat :=
  match kw.interval_minutes with
  | none => st.default_interval_minutes
  | some 0 => st.default_interval_minutes
  | some n => n

/-- `int(kw.get("limit_per_run") or settings["default_limit_per_run"])`. -/
def kw_limit (st : Settings) (kw : Keyword) : Nat :=
  match kw.limit_per_run with
  | none => st.default_limit_per_run
  | some 0 => st.default_limit_per_run
  | some n => n

/-- The effective interval of `scheduler_loop` (lines 673-679), minutes:
during the sleep window an interval under an hour becomes one hour. -/
def eff_interval (in_sleep : Bool) (interval_minutes : Nat) : Nat :=
  if in_sleep && decide (interval_minutes < 60) then 60 else interval_minutes

/-- The due test of `scheduler_loop` (lines 681-689), time in seconds:
due when `last_run_at` is `none` ("Nooit" or unparsable) or the elapsed
time reaches the effective interval. -/
def is_due (now : Int) (last : Option Int) (eff_minutes : Nat) : Bool :=
  match last with
  | none => true
  | some t => decide ((eff_minutes : Int) * 60 ≤ now - t)

/-- A Telegram message: one per-ad notification (`send_telegram_ad`, photo
or text form) or one plain status text (`send_telegram_message`). -/
inductive Msg where
  | adMsg (ad : Ad)
  | textMsg (text : String)
deriving Repr, DecidableEq

/-- `send_telegram_ad` (lines 536-582): nothing when the bot or chat id is
missing; otherwise exactly one message carrying the ad. -/
def send_telegram_ad (st : Settings) (ad : Ad) : Option Msg :=
  if st.telegram_bot_id = "" || st.telegram_chat_id = "" then none
  else some (.adMsg ad)

/-- `send_telegram_message` (lines 517-533): same credential gate, one
text message. -/
def send_telegram_message (st : Settings) (text : String) : Option Msg :=
  if st.telegram_bot_id = "" || st.telegram_chat_id = "" then none
  else some (.textMsg text)

/-- `run_search_for_keyword` (lines 589-640), the fetch outcome and the
epoch renderer explicit.  Returns `((total, new_count), table, messages)`:
the counts the function returns, the updated `results` table, and the
Telegram messages sent, in order.  (The local `interval` the source
computes is unused in the body and omitted.) -/
def run_search_for_keyword (fmt : Int → String) (kw : Keyword) (st : Settings)
    (outcome : FetchOutcome) (db : DB) (now_str : String) (manual : Bool) :
    (Nat × Nat) × DB × List Msg :=
  let limit_per_run := max 1 (min 20 (kw_limit st kw))
  let raw_ads := fetch_marktplaats_results fmt outcome limit_per_run
  let filtered_ads := filter_ads kw.min_price kw.max_price raw_ads
  let r := store_new_results kw.id filtered_ads now_str db
  let manual_telegram_on := isJa st.manual_telegram
  let msgs :=
    if !manual then r.2.filterMap (send_telegram_ad st)
    else if manual_telegram_on && !r.2.isEmpty then r.2.filterMap (send_telegram_ad st)
    else []
  ((filtered_ads.length, r.2.length), r.1, msgs)

/-- The per-tick sleep test of `scheduler_loop` (lines 660-667). -/
def compute_in_sleep (st : Settings) (now_t : Nat) : Bool :=
  isJa st.sleep_mode &&
    is_in_sleep_window now_t (parse_time_str st.sleep_start)
      (parse_time_str st.sleep_end)

/-- `scheduler_loop`'s handling of one keyword within a tick (lines
669-695): skip empty terms, compute the effective interval, and on a due
term run the pipeline and stamp `last_run_at`.  The stamp follows every
completed run; in this model the pipeline always completes, since every
raising path inside the Python body is caught within the functions
modelled above.  `now` is the tick's clock in seconds. -/
def scheduler_process_kw (fmt : Int → String) (st : Settings) (in_sleep : Bool)
    (now : Int) (now_str : String) (outcome : FetchOutcome) (db : DB)
    (kw : Keyword) : Keyword × DB × List Msg :=
  if kw.term = "" then (kw, db, [])
  else
    let eff := eff_interval in_sleep (kw_interval st kw)
    if is_due now kw.last_run_at eff then
      let r := run_search_for_keyword fmt kw st outcome db now_str false
      ({kw with last_run_at := some now}, r.2.1, r.2.2)
    else (kw, db, [])

/-- The `/keyword/<id>/manual` route (lines 810-828): run the pipeline
with `manual=True`, then unconditionally stamp `last_run_at` with the
current time.  Returns the updated keyword and table, the messages, and
the flashed `(total, new_count)`. -/
def manual_search (fmt : Int → String) (kw : Keyword) (st : Settings)
    (outcome : FetchOutcome) (db : DB) (now_str : String) (now : Int) :
    Keyword × DB × List Msg × Nat × Nat :=
  let r := run_search_for_keyword fmt kw st outcome db now_str true
  ({kw with last_run_at := some now}, r.2.1, r.2.2, r.1.1, r.1.2)

/-- Sample listing whose price display has no digits (a "Bieden" ad). -/
def bidAd : Ad :=
  ⟨"m100", "BMW velgen", "Bieden", "https://www.marktplaats.nl/v/a/m100", "", ""⟩

/-- Sample listing whose price display uses a thousands separator:
"€ 1.250" denotes 1250 in the major currency unit. -/
def grandAd : Ad :=
  ⟨"m200", "Racefiets", "€ 1.250", "https://www.marktplaats.nl/v/a/m200", "", ""⟩

/-- Sample settings: Telegram configured, manual notifications enabled. -/
def stManualOn : Settings :=
  ⟨15, 5, "nee", "23:00", "07:00", "bot123", "chat456", "ja"⟩

/-- Sample watched term that has never run. -/
def legoKw : Keyword :=
  ⟨1, "lego", some 15, none, none, some 5, none⟩

theorem hasKey_append (db : DB) (x : Entry) (k : Nat) (i : String) :
    hasKey (db ++ [x]) k i
      = (hasKey db k i || (decide (x.keyword_id = k) && decide (x.ad_id = i))) := by
  simp [hasKey, List.any_append]

theorem store_preserves_hasKey (kid : Nat) (ads : List Ad) (now : String)
    (db : DB) (k : Nat) (i : String) (h : hasKey db k i = true) :
    hasKey (store_new_results kid ads now db).1 k i = true := by
  induction ads generalizing db with
  | nil => exact h
  | cons a rest ih =>
    cases hk : hasKey db kid a.ad_id with
    | true => simpa [store_new_results, hk] using ih db h
    | false =>
      have h2 : hasKey (db ++ [mkEntry kid now a]) k i = true := by
        rw [hasKey_append, h]; rfl
      simpa [store_new_results, hk] using ih (db ++ [mkEntry kid now a]) h2

theorem store_mem_hasKey (kid : Nat) (ads : List Ad) (now : String) (db : DB) :
    ∀ a ∈ ads, hasKey (store_new_results kid ads now db).1 kid a.ad_id = true := by
  induction ads generalizing db with
  | nil => intro a ha; cases ha
  | cons b rest ih =>
    intro a ha
    rcases List.mem_cons.mp ha with rfl | hmem
    · cases hk : hasKey db kid a.ad_id with
      | true =>
        simpa [store_new_results, hk]
          using store_preserves_hasKey kid rest now db kid a.ad_id hk
      | false =>
        have h2 : hasKey (db ++ [mkEntry kid now a]) kid a.ad_id = true := by
          rw [hasKey_append]; simp [mkEntry]
        simpa [store_new_results, hk]
          using store_preserves_hasKey kid rest now _ kid a.ad_id h2
    · cases hk : hasKey db kid b.ad_id with
      | true => simpa [store_new_results, hk] using ih db a hmem
      | false =>
        simpa [store_new_results, hk] using ih (db ++ [mkEntry kid now b]) a hmem

theorem store_all_present (kid : Nat) (ads : List Ad) (now : String) (db : DB)
    (h : ∀ a ∈ ads, hasKey db kid a.ad_id = true) :
    store_new_results kid ads now db = (db, []) := by
  induction ads with
  | nil => rfl
  | cons b rest ih =>
    have hb := h b (List.mem_cons_self b rest)
    have hr := ih fun a ha => h a (List.mem_cons_of_mem b ha)
    simp [store_new_results, hb, hr]

theorem hasKey_false_not_mem (db : DB) (k : Nat) (i : String)
    (h : hasKey db k i = false) : (k, i) ∉ db.map keyOf := by
  intro hmem
  rcases List.mem_map.mp hmem with ⟨x, hx, hkey⟩
  have hp : (decide (x.keyword_id = k) && decide (x.ad_id = i)) = true := by
    have h1 : x.keyword_id = k := congrArg Prod.fst hkey
    have h2 : x.ad_id = i := congrArg Prod.snd hkey
    simp [h1, h2]
  have : hasKey db k i = true := List.any_eq_true.mpr ⟨x, hx, hp⟩
  rw [h] at this
  cases this

theorem store_nodup (kid : Nat) (ads : List Ad) (now : String) (db : DB)
    (h : keysNodup db) : keysNodup (store_new_results kid ads now db).1 := by
  induction ads generalizing db with
  | nil => exact h
  | cons b rest ih =>
    cases hk : hasKey db kid b.ad_id with
    | true => simpa [store_new_results, hk] using ih db h
    | false =>
      have hnd : keysNodup (db ++ [mkEntry kid now b]) := by
        unfold keysNodup at h ⊢
        rw [List.map_append, List.map_singleton]
        have hperm : (db.map keyOf ++ [keyOf (mkEntry kid now b)]).Perm
            (keyOf (mkEntry kid now b) :: db.map keyOf) :=
          List.perm_append_singleton _ _
        rw [hperm.nodup_iff, List.nodup_cons]
        exact ⟨hasKey_false_not_mem db kid b.ad_id hk, h⟩
      simpa [store_new_results, hk] using ih (db ++ [mkEntry kid now b]) hnd

theorem reset_nodup (kid : Nat) (db : DB) (h : keysNodup db) :
    keysNodup (reset_results_for_keyword kid db) := by
  unfold keysNodup reset_results_for_keyword
  unfold keysNodup at h
  exact h.sublist (List.Sublist.map keyOf (List.filter_sublist db))

theorem applyOps_nodup (ops : List LedgerOp) (db : DB) (h : keysNodup db) :
    keysNodup (applyOps db ops) := by
  induction ops generalizing db with
  | nil => exact h
  | cons op rest ih =>
    cases op with
    | record kid ads now => exact ih _ (store_nodup kid ads now db h)
    | reset kid => exact ih _ (reset_nodup kid db h)

theorem mkDT_bounds (y mo d h mi s : Nat) (dt : DT)
    (hm : mkDT y mo d h mi s = some dt) :
    1 ≤ dt.year ∧ 1 ≤ dt.month ∧ 1 ≤ dt.day := by
  unfold mkDT at hm
  split at hm
  · rename_i hcond
    injection hm with hm
    subst hm
    exact ⟨hcond.1, hcond.2.2.1, hcond.2.2.2.2.1⟩
  · cases hm

theorem fromiso_bounds (cs : List Char) (dt : DT)
    (h : fromisoformatL cs = some dt) :
    1 ≤ dt.year ∧ 1 ≤ dt.month ∧ 1 ≤ dt.day := by
  unfold fromisoformatL at h
  rcases Option.bind_eq_some.mp h with ⟨⟨y, mo, da, hh, mi, ss⟩, _, hmk⟩
  exact mkDT_bounds y mo da hh mi ss dt hmk

theorem shortDate_bounds (cs : List Char) (dt : DT)
    (h : shortDate cs = some dt) :
    1 ≤ dt.year ∧ 1 ≤ dt.month ∧ 1 ≤ dt.day := by
  unfold shortDate at h
  split at h
  · rcases Option.bind_eq_some.mp h with ⟨day, _, h2⟩
    rcases Option.bind_eq_some.mp h2 with ⟨y0, _, h3⟩
    dsimp only at h3
    split at h3
    · exact mkDT_bounds _ _ _ _ _ _ dt h3
    · cases h3
  · cases h

theorem posted_dt_bounds (p : String) (dt : DT) (h : posted_dt p = some dt) :
    1 ≤ dt.year ∧ 1 ≤ dt.month ∧ 1 ≤ dt.day := by
  unfold posted_dt at h
  split at h
  · cases h
  · dsimp only at h
    split at h
    · cases h
    · split at h
      · rename_i dt' hiso
        injection h with h
        subst h
        exact fromiso_bounds _ _ hiso
      · exact shortDate_bounds _ _ h

theorem parse_posted_bounds (p f : String) :
    1 ≤ (parse_posted_at_to_dt p f).year ∧
      1 ≤ (parse_posted_at_to_dt p f).month ∧
      1 ≤ (parse_posted_at_to_dt p f).day := by
  unfold parse_posted_at_to_dt
  cases hp : posted_dt p with
  | some dt => exact posted_dt_bounds p dt hp
  | none =>
    by_cases hf : f = ""
    · simp [hf, DT.min]
    · cases hiso : fromisoformatL f.toList with
      | some dt => simpa [hf] using fromiso_bounds f.toList dt hiso
      | none => simp [hf, DT.min]

theorem min_key_le (dt : DT) (h1 : 1 ≤ dt.year) (h2 : 1 ≤ dt.month)
    (h3 : 1 ≤ dt.day) : DT.min.key ≤ dt.key := by
  unfold DT.min DT.key
  dsimp only
  omega

theorem filterMap_send_eq_map (st : Settings) (hbot : st.telegram_bot_id ≠ "")
    (hchat : st.telegram_chat_id ≠ "") (l : List Ad) :
    l.filterMap (send_telegram_ad st) = l.map Msg.adMsg := by
  induction l with
  | nil => rfl
  | cons a t ih => simp [List.filterMap_cons, send_telegram_ad, hbot, hchat, ih]

/-- C1: FAILS on the code.  The claim says a listing whose price display
parses to no value (`priceValue = null`) always passes the Price Filter;
the filter loop in `run_search_for_keyword` instead drops such a listing
whenever a bound is set, since `p_int is None` triggers the `continue`.
The digit-free display "Bieden" with `min_price = 5` is dropped. -/
theorem c1_counterexample :
    parse_price_to_int bidAd.price = none ∧
    keep_ad (some 5) none bidAd = false ∧
    filter_ads (some 5) none [bidAd] = [] :=
  ⟨rfl, rfl, rfl⟩

/-- C1 amended: a listing whose price display yields no parsed value is
kept iff neither `min_price` nor `max_price` is set; as soon as either
bound is set, the unknown-price listing is excluded. -/
theorem c1_amended (min_price max_price : Option Nat) (ad : Ad)
    (h : parse_price_to_int ad.price = none) :
    keep_ad min_price max_price ad = (min_price.isNone && max_price.isNone) := by
  unfold keep_ad
  rw [h]
  cases min_price <;> cases max_price <;> rfl

/-- C1 amended at a concrete input: the "Bieden" ad against set bounds. -/
theorem c1_amended_witness :
    keep_ad (some 4) (some 10) bidAd
      = ((some 4 : Option Nat).isNone && (some 10 : Option Nat).isNone) :=
  c1_amended (some 4) (some 10) bidAd rfl

/-- C2: FAILS on the code.  With the price value set, the claim keeps the
listing iff `minPrice ≤ priceValue ≤ maxPrice` with all three in the major
currency unit; the code compares the digit string of the display against
the bounds multiplied by 100.  The display "€ 1.250" (major-unit value
1250, digit string 1250) with `min_price = 1000` satisfies the claim's
rule but the code drops it, since 1250 < 1000 * 100. -/
theorem c2_counterexample :
    parse_price_to_int grandAd.price = some 1250 ∧
    keep_spec (some 1000) none 1250 = true ∧
    keep_ad (some 1000) none grandAd = false :=
  ⟨rfl, rfl, rfl⟩

/-- C2 amended: with a parsed price value present, the filter keeps the
listing iff the digit string of the display, read as one number, lies
within the inclusive bounds scaled by 100 — the claim's rule with both
bounds converted to the minor unit (cents) and the digit string taken as
a cent amount, which matches the major-unit reading only for displays
carrying exactly two decimals. -/
theorem c2_amended (min_price max_price : Option Nat) (ad : Ad) (v : Nat)
    (h : parse_price_to_int ad.price = some v) :
    keep_ad min_price max_price ad
      = keep_spec (min_price.map (· * 100)) (max_price.map (· * 100)) v := by
  unfold keep_ad keep_spec
  rw [h]
  cases min_price <;> cases max_price <;> rfl

/-- C2 amended at a concrete input: "€ 1.250" against bounds 10 and 13. -/
theorem c2_amended_witness :
    keep_ad (some 10) (some 13) grandAd
      = keep_spec ((some 10 : Option Nat).map (· * 100))
          ((some 13 : Option Nat).map (· * 100)) 1250 :=
  c2_amended (some 10) (some 13) grandAd 1250 rfl

/-- C3: PARTLY FAILS on the code.  The fetcher does resolve every failure
to an empty sequence without raising, but the scheduler then treats the
run as completed, not failed: with the never-run term "lego" due and the
fetch failing, the tick stamps `last_run_at = now` (the claim says it is
not advanced), and one tick later (60 s) the term is not due again. -/
theorem c3_counterexample :
    fetch_marktplaats_results (fun _ => "") .failure 5 = [] ∧
    legoKw.last_run_at = none ∧
    (scheduler_process_kw (fun _ => "") stManualOn false 100000 "s" .failure []
        legoKw).1.last_run_at = some 100000 ∧
    is_due 100060 (some 100000)
      (eff_interval false (kw_interval stManualOn legoKw)) = false :=
  ⟨rfl, rfl, rfl, rfl⟩

/-- C3 amended: a failed fetch (timeout, non-2xx, unparsable body) and a
parsed payload without a listings array both resolve to the empty
sequence without raising; but the term's run is then treated as
successful — the tick stamps `last_run_at = now`, stores nothing, sends
nothing, and the term is not due again until a full effective interval
has elapsed. -/
theorem c3_amended (fmt : Int → String) (st : Settings) (in_sleep : Bool)
    (now : Int) (ns : String) (db : DB) (kw : Keyword) (limit : Nat) (d : J)
    (hterm : kw.term ≠ "")
    (hdue : is_due now kw.last_run_at
      (eff_interval in_sleep (kw_interval st kw)) = true) :
    fetch_marktplaats_results fmt .failure limit = [] ∧
    (find_listings d = none →
      fetch_marktplaats_results fmt (.payload d) limit = []) ∧
    (scheduler_process_kw fmt st in_sleep now ns .failure db kw).1.last_run_at
      = some now ∧
    (scheduler_process_kw fmt st in_sleep now ns .failure db kw).2.1 = db ∧
    (scheduler_process_kw fmt st in_sleep now ns .failure db kw).2.2 = [] ∧
    (∀ now2 : Int,
      now2 - now < (eff_interval in_sleep (kw_interval st kw) : Int) * 60 →
      is_due now2 (some now) (eff_interval in_sleep (kw_interval st kw))
        = false) := by
  refine ⟨rfl, ?_, ?_, ?_, ?_, ?_⟩
  · intro hd
    simp [fetch_marktplaats_results, hd]
  · simp [scheduler_process_kw, hterm, hdue]
  · simp [scheduler_process_kw, hterm, hdue, run_search_for_keyword,
      fetch_marktplaats_results, filter_ads, store_new_results]
  · simp [scheduler_process_kw, hterm, hdue, run_search_for_keyword,
      fetch_marktplaats_results, filter_ads, store_new_results]
  · intro now2 hlt
    simp only [is_due, decide_eq_false_iff_not, not_le]
    omega

/-- C3 amended at a concrete input: the due, never-run "lego" term at a
failing fetch. -/
theorem c3_amended_witness :
    fetch_marktplaats_results (fun _ => "") .failure 3 = [] ∧
    (find_listings (.obj [("x", .num 1)]) = none →
      fetch_marktplaats_results (fun _ => "")
        (.payload (.obj [("x", .num 1)])) 3 = []) ∧
    (scheduler_process_kw (fun _ => "") stManualOn false 5000 "s" .failure []
        legoKw).1.last_run_at = some 5000 ∧
    (scheduler_process_kw (fun _ => "") stManualOn false 5000 "s" .failure []
        legoKw).2.1 = [] ∧
    (scheduler_process_kw (fun _ => "") stManualOn false 5000 "s" .failure []
        legoKw).2.2 = [] ∧
    (∀ now2 : Int,
      now2 - 5000 <
        (eff_interval false (kw_interval stManualOn legoKw) : Int) * 60 →
      is_due now2 (some 5000)
        (eff_interval false (kw_interval stManualOn legoKw)) = false) :=
  c3_amended (fun _ => "") stManualOn false 5000 "s" [] legoKw 3
    (.obj [("x", .num 1)]) (by decide) rfl

/-- C4: FAILS on the code.  A manual run with the operator flag enabled
and zero new listings sends nothing at all; no "no results" status
message exists anywhere in `run_search_for_keyword` (the only
`send_telegram_message` caller is the settings-test route).  Concretely:
flag "ja", credentials set, fetch failed (zero new) — and the sent
message list is empty rather than one status message. -/
theorem c4_counterexample :
    isJa stManualOn.manual_telegram = true ∧
    stManualOn.telegram_bot_id ≠ "" ∧
    (run_search_for_keyword (fun _ => "") legoKw stManualOn .failure [] "s"
        true).1.2 = 0 ∧
    (run_search_for_keyword (fun _ => "") legoKw stManualOn .failure [] "s"
        true).2.2 = [] :=
  ⟨rfl, by decide, rfl, rfl⟩

/-- C4 amended: a manual run sends one per-ad notification per new
listing when the flag is enabled (and Telegram is configured), and
nothing otherwise — in particular a manual run that yields zero new
listings sends nothing (no status message of any kind), and a manual run
with the flag disabled sends nothing. -/
theorem c4_amended (fmt : Int → String) (kw : Keyword) (st : Settings)
    (outcome : FetchOutcome) (db : DB) (ns : String) :
    (∀ m ∈ (run_search_for_keyword fmt kw st outcome db ns true).2.2,
      ∃ a, m = Msg.adMsg a) ∧
    (isJa st.manual_telegram = false →
      (run_search_for_keyword fmt kw st outcome db ns true).2.2 = []) ∧
    ((run_search_for_keyword fmt kw st outcome db ns true).1.2 = 0 →
      (run_search_for_keyword fmt kw st outcome db ns true).2.2 = []) ∧
    (isJa st.manual_telegram = true → st.telegram_bot_id ≠ "" →
      st.telegram_chat_id ≠ "" →
      (run_search_for_keyword fmt kw st outcome db ns true).2.2.length
        = (run_search_for_keyword fmt kw st outcome db ns true).1.2) := by
  unfold run_search_for_keyword
  dsimp only
  refine ⟨?_, ?_, ?_, ?_⟩
  · intro m hm
    split at hm
    · rcases List.mem_filterMap.mp hm with ⟨a, _, hsend⟩
      unfold send_telegram_ad at hsend
      split at hsend
      · cases hsend
      · exact ⟨a, (Option.some.injEq .. ▸ hsend : _ = m).symm⟩
    · split at hm
      · rcases List.mem_filterMap.mp hm with ⟨a, _, hsend⟩
        unfold send_telegram_ad at hsend
        split at hsend
        · cases hsend
        · exact ⟨a, (Option.some.injEq .. ▸ hsend : _ = m).symm⟩
      · cases hm
  · intro hoff
    simp [hoff]
  · intro hzero
    have : (store_new_results kw.id
        (filter_ads kw.min_price kw.max_price
          (fetch_marktplaats_results fmt outcome
            (max 1 (min 20 (kw_limit st kw))))) ns db).2 = [] :=
      List.length_eq_zero.mp hzero
    simp [this]
  · intro hon hbot hchat
    cases hne : (store_new_results kw.id
        (filter_ads kw.min_price kw.max_price
          (fetch_marktplaats_results fmt outcome
            (max 1 (min 20 (kw_limit st kw))))) ns db).2 with
    | nil => simp [hne]
    | cons a t =>
      simp only [hon, hne, Bool.not_true, Bool.false_eq_true, if_false,
        List.isEmpty_cons, Bool.not_false, Bool.and_self, if_true]
      rw [← hne, filterMap_send_eq_map st hbot hchat]
      simp

/-- C5: running `store_new_results` twice in sequence with the same
listings always yields an empty "new" subset on the second run: after the
first run every ad of the batch is ledgered, so each second-run insert
collides with the uniqueness key and is skipped. -/
theorem c5_second_run_empty (kid : Nat) (ads : List Ad) (n1 n2 : String)
    (db : DB) :
    (store_new_results kid ads n2 (store_new_results kid ads n1 db).1).2
      = [] := by
  have h := store_all_present kid ads n2 (store_new_results kid ads n1 db).1
    (fun a ha => store_mem_hasKey kid ads n1 db a ha)
  rw [h]

/-- C6: the ledger's dedup invariant.  (i) From a table without duplicate
`(keyword_id, ad_id)` pairs, any sequence of record-new and reset/delete
operations preserves that uniqueness; (ii) an insert colliding with an
existing entry is a complete no-op: the table is unchanged (first-seen
data preserved, never an update) and the ad is excluded from the "new"
subset; (iii) the same `ad_id` under a different term id is ledgered
independently: that insert succeeds and both terms' entries are present. -/
theorem c6_ledger_invariant (db : DB) (ops : List LedgerOp) (kid kid2 : Nat)
    (ad : Ad) (n : String) (hnd : keysNodup db) :
    keysNodup (applyOps db ops) ∧
    (hasKey db kid ad.ad_id = true →
      store_new_results kid [ad] n db = (db, [])) ∧
    (hasKey db kid ad.ad_id = true → hasKey db kid2 ad.ad_id = false →
      (store_new_results kid2 [ad] n db).2 = [ad] ∧
      hasKey (store_new_results kid2 [ad] n db).1 kid ad.ad_id = true ∧
      hasKey (store_new_results kid2 [ad] n db).1 kid2 ad.ad_id = true) := by
  refine ⟨applyOps_nodup ops db hnd, ?_, ?_⟩
  · intro h
    refine store_all_present kid [ad] n db ?_
    intro a ha
    rcases List.mem_singleton.mp ha with rfl
    exact h
  · intro h1 h2
    refine ⟨?_, ?_, ?_⟩
    · simp [store_new_results, h2]
    · simp [store_new_results, h2, hasKey_append, h1]
    · simp [store_new_results, h2, hasKey_append, mkEntry]

/-- C6 at a concrete input: a one-row table for term 1, re-recording the
same ad under term 1 (collision) and under term 2 (independent entry),
plus a reset of term 3. -/
theorem c6_ledger_invariant_witness :
    keysNodup (applyOps [mkEntry 1 "t0" bidAd]
      [.record 1 [bidAd] "t1", .reset 3]) ∧
    (hasKey [mkEntry 1 "t0" bidAd] 1 bidAd.ad_id = true →
      store_new_results 1 [bidAd] "t1" [mkEntry 1 "t0" bidAd]
        = ([mkEntry 1 "t0" bidAd], [])) ∧
    (hasKey [mkEntry 1 "t0" bidAd] 1 bidAd.ad_id = true →
      hasKey [mkEntry 1 "t0" bidAd] 2 bidAd.ad_id = false →
      (store_new_results 2 [bidAd] "t1" [mkEntry 1 "t0" bidAd]).2 = [bidAd] ∧
      hasKey (store_new_results 2 [bidAd] "t1"
        [mkEntry 1 "t0" bidAd]).1 1 bidAd.ad_id = true ∧
      hasKey (store_new_results 2 [bidAd] "t1"
        [mkEntry 1 "t0" bidAd]).1 2 bidAd.ad_id = true) :=
  c6_ledger_invariant [mkEntry 1 "t0" bidAd]
    [.record 1 [bidAd] "t1", .reset 3] 1 2 bidAd "t1"
    (by unfold keysNodup; decide)

/-- C7: the scheduler's effective interval equals
`max(intervalMinutes, 60)` under active sleep and `intervalMinutes`
otherwise; a term is due iff `last_run_at` is absent or the elapsed time
reaches the effective interval; a tick stamps exactly the due terms with
non-empty search text and leaves the rest untouched; and the spec's
concrete instances: a 15-minute term is not due 14 minutes after its last
run, is due at 15 minutes or with no last run, and sleeps at a 60-minute
effective interval. -/
theorem c7_schedule (in_sleep : Bool) (interval : Nat) (now : Int)
    (last : Option Int) (e : Nat) (fmt : Int → String) (st : Settings)
    (outcome : FetchOutcome) (db : DB) (kw : Keyword) (ns : String) :
    eff_interval in_sleep interval
      = (if in_sleep then max interval 60 else interval) ∧
    (is_due now last e = true ↔
      (last = none ∨ ∃ t, last = some t ∧ (e : Int) * 60 ≤ now - t)) ∧
    ((scheduler_process_kw fmt st in_sleep now ns outcome db kw).1
      = if kw.term ≠ "" ∧
            is_due now kw.last_run_at
              (eff_interval in_sleep (kw_interval st kw)) = true
        then {kw with last_run_at := some now} else kw) ∧
    eff_interval true 15 = 60 ∧
    is_due now (some (now - 14 * 60)) 15 = false ∧
    is_due now (some (now - 15 * 60)) 15 = true ∧
    is_due now none 15 = true := by
  refine ⟨?_, ?_, ?_, rfl, ?_, ?_, rfl⟩
  · cases in_sleep with
    | false => rfl
    | true =>
      unfold eff_interval
      rcases Nat.lt_or_ge interval 60 with h | h
      · rw [if_pos (by simp [h]), if_pos rfl]
        omega
      · rw [if_neg (by simp [Nat.not_lt.mpr h]), if_pos rfl]
        omega
  · cases last with
    | none => simp [is_due]
    | some t =>
      simp only [is_due, decide_eq_true_eq]
      constructor
      · intro h
        exact Or.inr ⟨t, rfl, h⟩
      · rintro (h | ⟨u, hu, h⟩)
        · cases h
        · cases Option.some.injEq t u ▸ hu
          simpa using h
  · by_cases hterm : kw.term = ""
    · simp [scheduler_process_kw, hterm]
    · cases hdue : is_due now kw.last_run_at
        (eff_interval in_sleep (kw_interval st kw)) with
      | true => simp [scheduler_process_kw, hterm, hdue]
      | false => simp [scheduler_process_kw, hterm, hdue]
  · simp only [is_due, decide_eq_false_iff_not, not_le]
    omega
  · simp only [is_due, decide_eq_true_eq]
    omega

/-- C8: the sleep-window test is the half-open interval
`sleepStart ≤ t < sleepEnd` when `sleepStart < sleepEnd` and wraps past
midnight (`t ≥ sleepStart` or `t < sleepEnd`) when `sleepStart ≥
sleepEnd`; with the 23:00-07:00 window, 23:30, 00:00 and 06:59 are
inside while 07:00, 12:00 and 22:59 are outside. -/
theorem c8_sleep_window (t s e : Nat) :
    (s < e → (is_in_sleep_window t s e = true ↔ s ≤ t ∧ t < e)) ∧
    (e ≤ s → (is_in_sleep_window t s e = true ↔ s ≤ t ∨ t < e)) ∧
    is_in_sleep_window 1410 1380 420 = true ∧
    is_in_sleep_window 0 1380 420 = true ∧
    is_in_sleep_window 419 1380 420 = true ∧
    is_in_sleep_window 420 1380 420 = false ∧
    is_in_sleep_window 720 1380 420 = false ∧
    is_in_sleep_window 1379 1380 420 = false := by
  refine ⟨?_, ?_, rfl, rfl, rfl, rfl, rfl, rfl⟩
  · intro h
    simp [is_in_sleep_window, h]
  · intro h
    have hn : ¬s < e := Nat.not_lt.mpr h
    simp [is_in_sleep_window, hn]

/-- C9: listing a term's results returns rows of that term only, ordered
newest first by the chronological key `parse_posted_at_to_dt` computes:
an ISO datetime, or a "D Mon YY" short date through the fixed Dutch
month-abbreviation table with two-digit years mapped to 2000+, falling
back to `first_seen_at`, and `datetime.min` — the minimum of every
produced key, hence ordered last — when neither parses.  The concrete
equations exercise each branch. -/
theorem c9_list_order (db : DB) (kid limit : Nat) :
    (get_results_for_keyword db kid limit).Pairwise
      (fun a b => (sort_dt b).key ≤ (sort_dt a).key) ∧
    (∀ x ∈ get_results_for_keyword db kid limit,
      x ∈ db ∧ x.keyword_id = kid) ∧
    parse_posted_at_to_dt "2025-11-23T12:34:00" ""
      = ⟨2025, 11, 23, 12, 34, 0⟩ ∧
    parse_posted_at_to_dt "8 sep 25" "" = ⟨2025, 9, 8, 0, 0, 0⟩ ∧
    parse_posted_at_to_dt "Vandaag" "2025-01-02T03:04:05"
      = ⟨2025, 1, 2, 3, 4, 5⟩ ∧
    parse_posted_at_to_dt "Vandaag" "" = DT.min ∧
    (∀ p f : String, DT.min.key ≤ (parse_posted_at_to_dt p f).key) := by
  refine ⟨?_, ?_, rfl, rfl, rfl, rfl, ?_⟩
  · unfold get_results_for_keyword
    have hs := @List.sorted_mergeSort Entry
      (fun a b => decide ((sort_dt b).key ≤ (sort_dt a).key))
      (fun a b c hab hbc => by
        simp only [decide_eq_true_eq] at hab hbc ⊢
        exact le_trans hbc hab)
      (fun a b => by
        simp only [Bool.or_eq_true, decide_eq_true_eq]
        exact Nat.le_total _ _)
      (db.filter fun x => decide (x.keyword_id = kid))
    have hp := hs.imp fun h => of_decide_eq_true h
    exact hp.sublist (List.take_sublist limit _)
  · intro x hx
    unfold get_results_for_keyword at hx
    have h1 := List.take_subset limit _ hx
    have h2 := (List.mergeSort_perm _ _).subset h1
    have h3 := List.mem_filter.mp h2
    exact ⟨h3.1, of_decide_eq_true h3.2⟩
  · intro p f
    have h := parse_posted_bounds p f
    exact min_key_le _ h.1 h.2.1 h.2.2

/-- C10: a manual run always stamps `last_run_at = now` once the pipeline
returns — also when the fetch failed and the run counted zero results —
so the term is not due again before a full effective interval has
elapsed from the manual run. -/
theorem c10_manual_stamp (fmt : Int → String) (kw : Keyword) (st : Settings)
    (outcome : FetchOutcome) (db : DB) (ns : String) (now : Int) :
    (manual_search fmt kw st outcome db ns now).1.last_run_at = some now ∧
    (manual_search fmt kw st .failure db ns now).2.2.2.1 = 0 ∧
    (manual_search fmt kw st .failure db ns now).2.2.2.2 = 0 ∧
    (∀ now2 : Int, ∀ sleep2 : Bool,
      now2 - now < (eff_interval sleep2 (kw_interval st kw) : Int) * 60 →
      is_due now2 (some now) (eff_interval sleep2 (kw_interval st kw))
        = false) := by
  refine ⟨rfl, rfl, rfl, ?_⟩
  intro now2 sleep2 hlt
  simp only [is_due, decide_eq_false_iff_not, not_le]
  omega

end MPW
